import Mathlib

/-!
Verification of the upstream-manager core of the mcp-proxy repository
(`upstream_manager.py`): the `UpstreamServer` class (child process over
stdio, JSON-RPC framing, startup handshake, tool invocation) and the
`UpstreamManager` class (server registry, tool-name routing table,
status helpers).

The embedding follows the source line by line.  Python/JSON values are
modelled by the inductive `Json` (numbers as `Int`; `Json.null` plays
the role of both JSON `null` and Python `None`, exactly as in the
source, where `json.loads` maps `null` to `None`).  The child process's
pipes are modelled as the spec describes the raw stdio helpers: a
channel of parsed JSON values.  Each line readable from the child's
stdout is `some v` (a line parsing to `v`) or `none` (a malformed
line, on which `json.loads` raises); the end of the scripted list is
end-of-stream (`readline` returning `""`).  Lines written to the
child's stdin are recorded as the serialized request objects, one list
element per newline-terminated line.  Exceptions are modelled by
`Except Err`; state updates that survive an exception (Python mutates
`self` before raising) are modelled by returning the updated record
next to the `Except` result.
-/

inductive Json where
  | null : Json
  | bool (b : Bool) : Json
  | num (n : Int) : Json
  | str (s : String) : Json
  | arr (elems : List Json) : Json
  | obj (fields : List (String × Json)) : Json

mutual

def Json.beq : Json → Json → Bool
  | .null, .null => true
  | .bool a, .bool b => a == b
  | .num a, .num b => a == b
  | .str a, .str b => a == b
  | .arr a, .arr b => Json.beqList a b
  | .obj a, .obj b => Json.beqFields a b
  | _, _ => false

def Json.beqList : List Json → List Json → Bool
  | [], [] => true
  | x :: xs, y :: ys => Json.beq x y && Json.beqList xs ys
  | _, _ => false

def Json.beqFields : List (String × Json) → List (String × Json) → Bool
  | [], [] => true
  | (k1, v1) :: xs, (k2, v2) :: ys => k1 == k2 && Json.beq v1 v2 && Json.beqFields xs ys
  | _, _ => false

end

mutual

theorem Json.beq_iff : (a b : Json) → (Json.beq a b = true ↔ a = b)
  | .null, b => by cases b <;> simp [Json.beq]
  | .bool x, b => by cases b <;> simp [Json.beq]
  | .num x, b => by cases b <;> simp [Json.beq]
  | .str x, b => by cases b <;> simp [Json.beq]
  | .arr xs, b => by
      cases b <;> simp [Json.beq]
      case arr ys => exact Json.beqList_iff xs ys
  | .obj fs, b => by
      cases b <;> simp [Json.beq]
      case obj gs => exact Json.beqFields_iff fs gs

theorem Json.beqList_iff : (xs ys : List Json) → (Json.beqList xs ys = true ↔ xs = ys)
  | [], ys => by cases ys <;> simp [Json.beqList]
  | x :: xs, [] => by simp [Json.beqList]
  | x :: xs, y :: ys => by
      simp [Json.beqList, Bool.and_eq_true, Json.beq_iff x y, Json.beqList_iff xs ys]

theorem Json.beqFields_iff : (xs ys : List (String × Json)) → (Json.beqFields xs ys = true ↔ xs = ys)
  | [], ys => by cases ys <;> simp [Json.beqFields]
  | x :: xs, [] => by simp [Json.beqFields]
  | (k1, v1) :: xs, (k2, v2) :: ys => by
      simp [Json.beqFields, Bool.and_eq_true, Json.beq_iff v1 v2, Json.beqFields_iff xs ys,
        and_assoc]

end

instance : BEq Json := ⟨Json.beq⟩

instance : LawfulBEq Json where
  eq_of_beq h := (Json.beq_iff _ _).mp h
  rfl := (Json.beq_iff _ _).mpr rfl

instance : DecidableEq Json := fun a b => decidable_of_iff _ (Json.beq_iff a b)

/-- Python truthiness of a JSON/Python value (`bool(x)`), as used by
`if not name:`, `if not server_id:` and the `or` in the tools extraction. -/
def Json.truthy : Json → Bool
  | .null => false
  | .bool b => b
  | .num n => n != 0
  | .str s => !s.isEmpty
  | .arr xs => !xs.isEmpty
  | .obj fs => !fs.isEmpty

/-- Exceptions raised by the source code.  `typeError` stands for Python
`TypeError`/`AttributeError` (an operation applied to a value of the wrong
shape); the `RuntimeError`s and `ValueError`s of `upstream_manager.py` are
split by their message into the conditions the spec names. -/
inductive Err where
  | notStarted (server_id : String) : Err
  | upstreamClosed (server_id : String) : Err
  | parseFailure (server_id : String) : Err
  | protocolError (server_id : String) (payload : Json) : Err
  | unknownTool (name : String) : Err
  | unknownServer (server_id : String) : Err
  | keyError (key : String) : Err
  | typeError : Err
  | launchError (server_id : String) : Err
deriving DecidableEq

/-- The two error-level diagnostics (`log_error` calls) of
`upstream_manager.py`: the missing-tools message of
`_initialize_and_fetch_tools` and the collision message of
`load_and_start`. -/
inductive Diag where
  | noTools (server_id : String) : Diag
  | collision (name : Json) (firstId : String) (newId : String) : Diag
deriving DecidableEq

/-- Python `d.get(k, dflt)`: field lookup with a default on a dict,
`AttributeError` (modelled `typeError`) on any non-dict value. -/
def Json.get (j : Json) (k : String) (dflt : Json) : Except Err Json :=
  match j with
  | .obj fs => .ok (((fs.find? (fun kv => kv.1 == k)).map (fun kv => kv.2)).getD dflt)
  | _ => .error .typeError

/-- Python `d[k]` with a string key: `KeyError` on a dict without the key,
`TypeError` on any non-dict value. -/
def Json.index (j : Json) (k : String) : Except Err Json :=
  match j with
  | .obj fs =>
    match (fs.find? (fun kv => kv.1 == k)).map (fun kv => kv.2) with
    | some v => .ok v
    | none => .error (.keyError k)
  | _ => .error .typeError

def charsIsPrefixOf : List Char → List Char → Bool
  | [], _ => true
  | _ :: _, [] => false
  | a :: as, b :: bs => a == b && charsIsPrefixOf as bs

def charsIsInfixOf (needle : List Char) : List Char → Bool
  | [] => charsIsPrefixOf needle []
  | b :: bs => charsIsPrefixOf needle (b :: bs) || charsIsInfixOf needle bs

/-- Python `key in j` for a string `key`: key membership on a dict, element
membership on a list, substring test on a string, `TypeError` otherwise. -/
def pyMem (key : String) : Json → Except Err Bool
  | .obj fs => .ok (fs.any (fun kv => kv.1 == key))
  | .arr xs => .ok (xs.any (fun x => x == Json.str key))
  | .str s => .ok (charsIsInfixOf key.toList s.toList)
  | _ => .error .typeError

/-- Python `for x in j`: elements of a list, one-character strings of a
string, keys of a dict, `TypeError` otherwise. -/
def pyIter : Json → Except Err (List Json)
  | .arr xs => .ok xs
  | .str s => .ok (s.toList.map (fun c => Json.str c.toString))
  | .obj fs => .ok (fs.map (fun kv => Json.str kv.1))
  | _ => .error .typeError

/-- Python `len(j)`: `TypeError` on values without a length. -/
def pyLen : Json → Except Err Nat
  | .arr xs => .ok xs.length
  | .str s => .ok s.length
  | .obj fs => .ok fs.length
  | _ => .error .typeError

/-- Lookup in an insertion-ordered dict (`d.get(k)` / `k in d`). -/
def dictFind? {κ α : Type} [BEq κ] (l : List (κ × α)) (k : κ) : Option α :=
  (l.find? (fun kv => kv.1 == k)).map (fun kv => kv.2)

/-- Python dict assignment `d[k] = v`: replace the value in place if the
key exists (a dict holds each key once), append at the end otherwise
(insertion order preserved). -/
def dictInsert {κ α : Type} [BEq κ] (l : List (κ × α)) (k : κ) (v : α) : List (κ × α) :=
  match l with
  | [] => [(k, v)]
  | kv :: rest => if kv.1 == k then (k, v) :: rest else kv :: dictInsert rest k v

/-- The pipes of one running child process: lines written so far to its
stdin (as parsed request objects, one per line) and the lines still
readable from its stdout (`none` = malformed JSON line; exhaustion =
end-of-stream). `alive` models `proc.poll() is None`. -/
structure Proc where
  stdinWrites : List Json
  stdoutLines : List (Option Json)
  alive : Bool
deriving DecidableEq

/-- The environment's behaviour for one `subprocess.Popen` call: whether the
spawn succeeds, and the child's scripted stdout. -/
structure ChildScript where
  launchOk : Bool
  stdoutLines : List (Option Json)
  alive : Bool
deriving DecidableEq

/-- The `UpstreamServer` object of `upstream_manager.py`. -/
structure UpstreamServer where
  server_id : String
  description : String
  command : String
  proc : Option Proc
  tools : Json
  _next_id : Nat
deriving DecidableEq

/-- `UpstreamServer.__init__`: no process, empty tool list, counter at 1. -/
def UpstreamServer.init (server_id description command : String) : UpstreamServer :=
  { server_id := server_id, description := description, command := command,
    proc := none, tools := .arr [], _next_id := 1 }

/-- The request object built by `_send_request`: `jsonrpc`, `id`, `method`,
and `params` exactly when the caller passed one (`if params is not None`). -/
def requestObj (reqId : Nat) (method : String) (params : Option Json) : Json :=
  .obj ([("jsonrpc", .str "2.0"), ("id", .num (reqId : Int)), ("method", .str method)] ++
    (match params with
     | some ps => [("params", ps)]
     | none => []))

/-- `UpstreamServer._send_request`, line by line: not-started check; take
and bump the id counter; build the request object; write it as one line;
read one line (end-of-stream ⇒ "closed stdout" error, malformed ⇒ JSON
parse failure); raise on an `error` member, else return the parsed
response.  The updated server is returned alongside, also on error. -/
def UpstreamServer._send_request (s : UpstreamServer) (method : String)
    (params : Option Json) : Except Err Json × UpstreamServer :=
  match s.proc with
  | none => (.error (.notStarted s.server_id), s)
  | some p =>
    let req := requestObj s._next_id method params
    let p1 : Proc :=
      { p with stdinWrites := p.stdinWrites ++ [req], stdoutLines := p.stdoutLines.tail }
    let s1 : UpstreamServer := { s with _next_id := s._next_id + 1, proc := some p1 }
    let r : Except Err Json :=
      match p.stdoutLines with
      | [] => .error (.upstreamClosed s.server_id)
      | none :: _ => .error (.parseFailure s.server_id)
      | some resp :: _ =>
        match pyMem "error" resp with
        | .error e => .error e
        | .ok true =>
          match resp.index "error" with
          | .ok payload => .error (.protocolError s.server_id payload)
          | .error e => .error e
        | .ok false => .ok resp
    (r, s1)

/-- The tools extraction of `_initialize_and_fetch_tools`:
`resp.get("result", {}).get("tools") or resp.get("tools")`. -/
def extractTools (resp : Json) : Except Err Json := do
  let r ← resp.get "result" (.obj [])
  let t1 ← r.get "tools" .null
  if t1.truthy then pure t1 else resp.get "tools" .null

/-- `UpstreamServer._initialize_and_fetch_tools`: the `initialize` request
with the fixed protocol version and empty capabilities, then `tools/list`
with a null cursor; the tools value is extracted by `extractTools`, and a
`None` result degrades to an empty catalog plus a diagnostic. -/
def UpstreamServer._initialize_and_fetch_tools (s : UpstreamServer) :
    Except Err Unit × UpstreamServer × List Diag :=
  let initParams : Json :=
    .obj [("protocolVersion", .str "2024-11-05"), ("capabilities", .obj [])]
  match s._send_request "initialize" (some initParams) with
  | (.error e, s1) => (.error e, s1, [])
  | (.ok _, s1) =>
    match s1._send_request "tools/list" (some (.obj [("cursor", .null)])) with
    | (.error e, s2) => (.error e, s2, [])
    | (.ok resp, s2) =>
      match extractTools resp with
      | .error e => (.error e, s2, [])
      | .ok t =>
        if t = .null then (.ok (), { s2 with tools := .arr [] }, [.noTools s.server_id])
        else (.ok (), { s2 with tools := t }, [])

/-- `UpstreamServer.start`: spawn the child (fresh pipes), then run the
handshake. -/
def UpstreamServer.start (s : UpstreamServer) (sc : ChildScript) :
    Except Err Unit × UpstreamServer × List Diag :=
  if !sc.launchOk then (.error (.launchError s.server_id), s, [])
  else
    let s1 : UpstreamServer :=
      { s with proc := some { stdinWrites := [], stdoutLines := sc.stdoutLines,
                              alive := sc.alive } }
    s1._initialize_and_fetch_tools

/-- `UpstreamServer.call_tool`: a `tools/call` request with
`{name, arguments}`; return `resp["result"]` when present, the raw
response otherwise; channel failures propagate unchanged. -/
def UpstreamServer.call_tool (s : UpstreamServer) (name : String) (arguments : Json) :
    Except Err Json × UpstreamServer :=
  let params : Json := .obj [("name", .str name), ("arguments", arguments)]
  match s._send_request "tools/call" (some params) with
  | (.error e, s1) => (.error e, s1)
  | (.ok resp, s1) =>
    match pyMem "result" resp with
    | .error e => (.error e, s1)
    | .ok true =>
      match resp.index "result" with
      | .ok v => (.ok v, s1)
      | .error e => (.error e, s1)
    | .ok false => (.ok resp, s1)

/-- The liveness string computed by `get_servers_status`:
`"connected" if s.proc and s.proc.poll() is None else "down"`. -/
def UpstreamServer.statusStr (s : UpstreamServer) : String :=
  match s.proc with
  | some p => if p.alive then "connected" else "down"
  | none => "down"

/-- One configuration record as `load_and_start` reads it from the parsed
config: `entry["id"]`, `entry.get("description", "")`, `entry["command"]`. -/
structure ConfigEntry where
  id : String
  description : String
  command : String
deriving DecidableEq

/-- The `UpstreamManager` object: the servers dict and the
tool-name → server-id routing table (keys are the raw `tool.get("name")`
values, which Python uses as dict keys unchanged). -/
structure UpstreamManager where
  servers : List (String × UpstreamServer)
  tool_to_server : List (Json × String)

/-- `UpstreamManager.__init__`. -/
def UpstreamManager.init : UpstreamManager :=
  { servers := [], tool_to_server := [] }

/-- The per-server tool loop of `load_and_start`: skip tools with a falsy
`name`, report a collision (first registration wins) when the name is
already in the table, register the tool otherwise.  A `tool.get` failure
aborts, keeping the table mutated so far. -/
def registerTools (server_id : String) (table : List (Json × String)) :
    List Json → Except Err Unit × List (Json × String) × List Diag
  | [] => (.ok (), table, [])
  | tool :: rest =>
    match tool.get "name" .null with
    | .error e => (.error e, table, [])
    | .ok name =>
      if !name.truthy then registerTools server_id table rest
      else
        match dictFind? table name with
        | some firstId =>
          let out := registerTools server_id table rest
          (out.1, out.2.1, .collision name firstId server_id :: out.2.2)
        | none => registerTools server_id (dictInsert table name server_id) rest

/-- `UpstreamManager.load_and_start` over the already-parsed configuration
(each entry paired with the environment's behaviour for its child
process): construct and start each server — a failure aborts the load,
keeping the state built so far — then record it in `servers` and merge its
catalog into the routing table. -/
def UpstreamManager.load_and_start (m : UpstreamManager) :
    List (ConfigEntry × ChildScript) → Except Err Unit × UpstreamManager × List Diag
  | [] => (.ok (), m, [])
  | (entry, sc) :: rest =>
    let server := UpstreamServer.init entry.id entry.description entry.command
    let (r, server', ds) := server.start sc
    match r with
    | .error e => (.error e, m, ds)
    | .ok _ =>
      let m1 : UpstreamManager := { m with servers := dictInsert m.servers entry.id server' }
      match pyIter server'.tools with
      | .error e => (.error e, m1, ds)
      | .ok toolList =>
        let reg := registerTools entry.id m1.tool_to_server toolList
        let m2 : UpstreamManager := { m1 with tool_to_server := reg.2.1 }
        match reg.1 with
        | .error e => (.error e, m2, ds ++ reg.2.2)
        | .ok _ =>
          let out := m2.load_and_start rest
          (out.1, out.2.1, ds ++ reg.2.2 ++ out.2.2)

/-- The accumulation loop of `get_all_tools`: `tools.extend(s.tools)` for
each server in registry order (iterating a catalog can raise on a
non-iterable value). -/
def getAllToolsGo : List (String × UpstreamServer) → List Json → Except Err (List Json)
  | [], acc => .ok acc
  | kv :: rest, acc =>
    match pyIter kv.2.tools with
    | .error e => .error e
    | .ok l => getAllToolsGo rest (acc ++ l)

/-- `UpstreamManager.get_all_tools`: concatenate every server's catalog in
registry order. -/
def UpstreamManager.get_all_tools (m : UpstreamManager) : Except Err (List Json) :=
  getAllToolsGo m.servers []

/-- The forwarding tail of `route_tool_call`:
`server = self.servers[server_id]; return server.call_tool(name, arguments)`
(unguarded indexing), with the mutated server written back. -/
def UpstreamManager.forward (m : UpstreamManager) (sid : String) (name : String)
    (arguments : Json) : Except Err Json × UpstreamManager :=
  match dictFind? m.servers sid with
  | none => (.error (.keyError sid), m)
  | some server =>
    let out := server.call_tool name arguments
    (out.1, { m with servers := dictInsert m.servers sid out.2 })

/-- `UpstreamManager.route_tool_call`: look the name up in the routing
table; `if not server_id:` treats both a missing entry and a falsy (empty)
server id as "no upstream server registered"; otherwise forward. -/
def UpstreamManager.route_tool_call (m : UpstreamManager) (name : String)
    (arguments : Json) : Except Err Json × UpstreamManager :=
  match dictFind? m.tool_to_server (.str name) with
  | none => (.error (.unknownTool name), m)
  | some sid =>
    if sid == "" then (.error (.unknownTool name), m)
    else m.forward sid name arguments

/-- One entry of `get_servers_status`. -/
def statusEntry (s : UpstreamServer) : Except Err Json := do
  let n ← pyLen s.tools
  pure (.obj [("id", .str s.server_id), ("description", .str s.description),
              ("tools_count", .num (n : Int)), ("status", .str s.statusStr)])

/-- The accumulation loop of `get_servers_status`. -/
def serversStatusGo : List (String × UpstreamServer) → List Json → Except Err (List Json)
  | [], acc => .ok acc
  | kv :: rest, acc =>
    match statusEntry kv.2 with
    | .error e => .error e
    | .ok ent => serversStatusGo rest (acc ++ [ent])

/-- `UpstreamManager.get_servers_status`. -/
def UpstreamManager.get_servers_status (m : UpstreamManager) : Except Err (List Json) :=
  serversStatusGo m.servers []

/-- `UpstreamManager.get_server_tools`: unknown-server error on a missing
id, the stored catalog otherwise. -/
def UpstreamManager.get_server_tools (m : UpstreamManager) (server_id : String) :
    Except Err Json :=
  match dictFind? m.servers server_id with
  | none => .error (.unknownServer server_id)
  | some s => .ok s.tools

/-- Issue a sequence of requests on one server, collecting each result. -/
def UpstreamServer.issueAll (s : UpstreamServer) :
    List (String × Option Json) → List (Except Err Json) × UpstreamServer
  | [] => ([], s)
  | (method, params) :: rest =>
    let (r, s1) := s._send_request method params
    let out := s1.issueAll rest
    (r :: out.1, out.2)

/-- The `id` field of a written request line. -/
def requestId (req : Json) : Json :=
  match req with
  | .obj fs => ((fs.find? (fun kv => kv.1 == "id")).map (fun kv => kv.2)).getD .null
  | _ => .null

/-- The ids of all request lines written so far to the child's stdin. -/
def writtenIds (s : UpstreamServer) : List Json :=
  match s.proc with
  | none => []
  | some p => p.stdinWrites.map requestId

/-! ### Library lemmas about the dict model -/

set_option linter.unusedSectionVars false

section DictLemmas

variable {κ α : Type} [BEq κ] [LawfulBEq κ] [DecidableEq κ]

theorem dictFind?_nil (k : κ) : dictFind? ([] : List (κ × α)) k = none := rfl

theorem dictFind?_cons (kv : κ × α) (l : List (κ × α)) (k : κ) :
    dictFind? (kv :: l) k = if kv.1 = k then some kv.2 else dictFind? l k := by
  by_cases h : kv.1 = k
  · simp [dictFind?, List.find?, h]
  · have hb : (kv.1 == k) = false := by simp [h]
    simp [dictFind?, List.find?, hb, h]

theorem dictFind?_mem {l : List (κ × α)} {k : κ} {v : α}
    (h : dictFind? l k = some v) : (k, v) ∈ l := by
  induction l with
  | nil => simp [dictFind?] at h
  | cons kv rest ih =>
    rw [dictFind?_cons] at h
    by_cases hk : kv.1 = k
    · simp only [hk, if_true, Option.some.injEq] at h
      have hkv : kv = (k, v) := by
        obtain ⟨a, b⟩ := kv
        simp only at hk h
        rw [hk, h]
      rw [← hkv]
      exact List.mem_cons_self _ _
    · simp only [hk, if_false] at h
      exact List.mem_cons_of_mem _ (ih h)

theorem dictFind?_eq_none_iff {l : List (κ × α)} {k : κ} :
    dictFind? l k = none ↔ ∀ kv ∈ l, kv.1 ≠ k := by
  unfold dictFind?
  simp [List.find?_eq_none]

theorem dictFind?_append (l₁ l₂ : List (κ × α)) (k : κ) :
    dictFind? (l₁ ++ l₂) k = (dictFind? l₁ k).or (dictFind? l₂ k) := by
  unfold dictFind?
  rw [List.find?_append]
  cases l₁.find? (fun kv => kv.1 == k) <;> simp

theorem dictFind?_insert (l : List (κ × α)) (k k' : κ) (v : α) :
    dictFind? (dictInsert l k v) k' = if k' = k then some v else dictFind? l k' := by
  induction l with
  | nil =>
    by_cases h : k' = k <;> simp [dictInsert, dictFind?_cons, h]
    exact fun hh => absurd hh.symm h
  | cons kv rest ih =>
    by_cases hh : kv.1 = k
    · simp only [dictInsert, hh, beq_self_eq_true, if_true]
      rw [dictFind?_cons, dictFind?_cons]
      by_cases h : k' = k
      · simp [h]
      · have h2 : ¬ k = k' := fun e => h e.symm
        simp [h, hh, h2]
    · have hb : (kv.1 == k) = false := by simp [hh]
      simp only [dictInsert, hb, Bool.false_eq_true, if_false]
      rw [dictFind?_cons, dictFind?_cons, ih]
      by_cases h1 : kv.1 = k'
      · have : ¬ k' = k := fun e => hh (h1.trans e)
        simp [h1, this]
      · simp [h1]

theorem mem_dictInsert {l : List (κ × α)} {k : κ} {v : α} {kv' : κ × α}
    (h : kv' ∈ dictInsert l k v) : kv' ∈ l ∨ kv' = (k, v) := by
  induction l with
  | nil =>
    simp only [dictInsert, List.mem_singleton] at h
    right; exact h
  | cons kv rest ih =>
    by_cases hh : kv.1 = k
    · simp only [dictInsert, hh, beq_self_eq_true, if_true] at h
      rcases List.mem_cons.mp h with h | h
      · right; exact h
      · left; exact List.mem_cons_of_mem _ h
    · have hb : (kv.1 == k) = false := by simp [hh]
      simp only [dictInsert, hb, Bool.false_eq_true, if_false] at h
      rcases List.mem_cons.mp h with h | h
      · left; exact h ▸ List.mem_cons_self _ _
      · rcases ih h with h | h
        · left; exact List.mem_cons_of_mem _ h
        · right; exact h

theorem dictInsert_of_find?_eq_none {l : List (κ × α)} {k : κ} (v : α)
    (h : dictFind? l k = none) : dictInsert l k v = l ++ [(k, v)] := by
  induction l with
  | nil => rfl
  | cons kv rest ih =>
    rw [dictFind?_cons] at h
    by_cases hh : kv.1 = k
    · simp [hh] at h
    · have hb : (kv.1 == k) = false := by simp [hh]
      simp only [dictInsert, hb, Bool.false_eq_true, if_false]
      simp only [hh, if_false] at h
      rw [ih h]
      simp

end DictLemmas

/-- `l.any p` agrees with `(l.find? p).isSome`. -/
theorem any_eq_find?_isSome {α : Type} (l : List α) (p : α → Bool) :
    l.any p = (l.find? p).isSome := by
  induction l with
  | nil => rfl
  | cons x xs ih =>
    cases hp : p x <;> simp [List.any_cons, List.find?, hp, ih]

/-! ### Behaviour of one request/response exchange -/

set_option linter.unusedVariables false

/-- The state change of `_send_request` on a started server: the id counter
is bumped and exactly one request line is appended to the child's stdin,
while exactly one stdout line is consumed — uniformly over all outcomes. -/
theorem send_request_state (s : UpstreamServer) (p : Proc) (method : String)
    (params : Option Json) (h : s.proc = some p) :
    (s._send_request method params).2 =
      { s with _next_id := s._next_id + 1,
               proc := some { stdinWrites := p.stdinWrites ++ [requestObj s._next_id method params],
                              stdoutLines := p.stdoutLines.tail, alive := p.alive } } := by
  simp only [UpstreamServer._send_request, h]

/-- The result of `_send_request` on a closed upstream (no stdout left). -/
theorem send_request_closed (s : UpstreamServer) (p : Proc) (method : String)
    (params : Option Json) (h : s.proc = some p) (hc : p.stdoutLines = []) :
    (s._send_request method params).1 = .error (.upstreamClosed s.server_id) := by
  simp only [UpstreamServer._send_request, h, hc]

/-- The result of `_send_request` when the next stdout line parses to a
JSON object: a protocol error carrying the `error` member when present,
the full response object otherwise. -/
theorem send_request_obj_result (s : UpstreamServer) (p : Proc) (method : String)
    (params : Option Json) (fs : List (String × Json)) (rest : List (Option Json))
    (h : s.proc = some p) (hl : p.stdoutLines = some (.obj fs) :: rest) :
    (s._send_request method params).1 =
      (match dictFind? fs "error" with
       | some payload => .error (.protocolError s.server_id payload)
       | none => .ok (.obj fs)) := by
  simp only [UpstreamServer._send_request, h, hl]
  cases hf : fs.find? (fun kv => kv.1 == "error") with
  | none =>
    have hany : fs.any (fun kv => kv.1 == "error") = false := by
      rw [any_eq_find?_isSome, hf]; rfl
    simp [pyMem, hany, dictFind?, hf]
  | some kv =>
    have hany : fs.any (fun kv => kv.1 == "error") = true := by
      rw [any_eq_find?_isSome, hf]; rfl
    simp [pyMem, hany, dictFind?, hf, Json.index]

/-- C5: every request sent by `_send_request` is the JSON object with
fields `jsonrpc="2.0"`, the channel's current id, the given method, and
`params` exactly when a params value was passed, written as exactly one
line to the child's stdin; exactly one response line is consumed, and when
it parses to an object, an `error` member makes the request fail with a
protocol error carrying that payload, while otherwise the full parsed
response object is returned. -/
theorem send_request_framing_spec (s : UpstreamServer) (p : Proc) (method : String)
    (params : Option Json) (h : s.proc = some p) :
    ((s._send_request method params).2 =
      { s with _next_id := s._next_id + 1,
               proc := some { stdinWrites := p.stdinWrites ++
                  [Json.obj ([("jsonrpc", .str "2.0"), ("id", .num (s._next_id : Int)),
                              ("method", .str method)] ++
                    (match params with
                     | some ps => [("params", ps)]
                     | none => []))],
                              stdoutLines := p.stdoutLines.tail, alive := p.alive } }) ∧
    (∀ fs rest, p.stdoutLines = some (.obj fs) :: rest →
      (s._send_request method params).1 =
        (match dictFind? fs "error" with
         | some payload => .error (.protocolError s.server_id payload)
         | none => .ok (.obj fs))) := by
  constructor
  · exact send_request_state s p method params h
  · intro fs rest hl
    exact send_request_obj_result s p method params fs rest h hl

/-- Concrete instance for `send_request_framing_spec`: a fresh server whose
child answers one line. -/
def srvC5 : UpstreamServer :=
  { UpstreamServer.init "w" "" "c" with
    proc := some { stdinWrites := [],
                   stdoutLines := [some (.obj [("id", .num 1), ("result", .obj [])])],
                   alive := true } }

theorem send_request_framing_spec_witness :
    (srvC5._send_request "initialize" none).1 = .ok (.obj [("id", .num 1), ("result", .obj [])]) ∧
    (srvC5._send_request "initialize" none).2 =
      { srvC5 with _next_id := 2,
                   proc := some { stdinWrites := [.obj [("jsonrpc", .str "2.0"), ("id", .num 1),
                                                        ("method", .str "initialize")]],
                                  stdoutLines := [], alive := true } } := by
  have h := send_request_framing_spec srvC5
    { stdinWrites := [], stdoutLines := [some (.obj [("id", .num 1), ("result", .obj [])])],
      alive := true } "initialize" none rfl
  refine ⟨(h.2 [("id", .num 1), ("result", .obj [])] [] rfl).trans rfl, h.1.trans rfl⟩

/-- The id of the request object built by `_send_request`. -/
theorem requestId_requestObj (i : Nat) (method : String) (params : Option Json) :
    requestId (requestObj i method params) = .num (i : Int) := by
  cases params <;> rfl

/-- Issuing a sequence of requests on a started server writes exactly the
consecutive ids `s._next_id, s._next_id + 1, …`, one per request, and
leaves the counter advanced by the number of requests; the process handle
survives with the stdout script advanced one line per request. -/
theorem issueAll_ids (reqs : List (String × Option Json)) :
    ∀ (s : UpstreamServer) (p : Proc), s.proc = some p →
    writtenIds (s.issueAll reqs).2 =
      writtenIds s ++ (List.range' s._next_id reqs.length).map (fun i => Json.num (Int.ofNat i)) ∧
    (s.issueAll reqs).2._next_id = s._next_id + reqs.length ∧
    ∃ p', (s.issueAll reqs).2.proc = some p' ∧
      p'.stdoutLines = p.stdoutLines.drop reqs.length ∧
      p'.stdinWrites.length = p.stdinWrites.length + reqs.length := by
  induction reqs with
  | nil =>
    intro s p h
    refine ⟨by simp [UpstreamServer.issueAll], by simp [UpstreamServer.issueAll], p, ?_⟩
    simp [UpstreamServer.issueAll, h]
  | cons rq rest ih =>
    intro s p h
    obtain ⟨method, params⟩ := rq
    have hstate := send_request_state s p method params h
    set s1 := (s._send_request method params).2 with hs1
    have hproc1 : s1.proc = some
        { stdinWrites := p.stdinWrites ++ [requestObj s._next_id method params],
          stdoutLines := p.stdoutLines.tail, alive := p.alive } := by
      rw [hstate]
    have hnext1 : s1._next_id = s._next_id + 1 := by rw [hstate]
    have hissue : (s.issueAll ((method, params) :: rest)).2 = (s1.issueAll rest).2 := by
      simp [UpstreamServer.issueAll]
    obtain ⟨hids, hcnt, p', hp', hlines, hwrites⟩ := ih s1 _ hproc1
    refine ⟨?_, ?_, p', ?_⟩
    · rw [hissue, hids, hnext1]
      have hw1 : writtenIds s1 = writtenIds s ++ [Json.num (s._next_id : Int)] := by
        rw [hstate]
        simp [writtenIds, h, requestId_requestObj]
      rw [hw1, List.length_cons, List.range'_succ, List.map_cons, List.append_assoc,
        List.singleton_append]
      rfl
    · rw [hissue, hcnt, hnext1, List.length_cons]
      omega
    · refine ⟨by rw [hissue, hp'], ?_, ?_⟩
      · rw [hlines]
        show List.drop rest.length p.stdoutLines.tail = _
        rw [← List.drop_one, List.drop_drop, List.length_cons, Nat.add_comm]
      · rw [hwrites]
        show (p.stdinWrites ++ [requestObj s._next_id method params]).length + rest.length = _
        simp
        omega

/-- C6: within one `UpstreamServer` record, freshly constructed and
started (the state in which the handshake itself runs), issuing N requests
of any methods writes the N strictly increasing request ids 1, 2, …, N —
each id consumed exactly once, starting at 1; the counter lives in the
record itself and advances to N + 1. -/
theorem request_ids_monotonic (id desc cmd : String) (lines : List (Option Json))
    (alive : Bool) (reqs : List (String × Option Json)) :
    writtenIds (({ UpstreamServer.init id desc cmd with
        proc := some { stdinWrites := [], stdoutLines := lines, alive := alive } }
      : UpstreamServer).issueAll reqs).2 =
      (List.range' 1 reqs.length).map (fun i => Json.num (Int.ofNat i)) ∧
    (({ UpstreamServer.init id desc cmd with
        proc := some { stdinWrites := [], stdoutLines := lines, alive := alive } }
      : UpstreamServer).issueAll reqs).2._next_id = 1 + reqs.length := by
  have h := issueAll_ids reqs
    ({ UpstreamServer.init id desc cmd with
        proc := some { stdinWrites := [], stdoutLines := lines, alive := alive } })
    { stdinWrites := [], stdoutLines := lines, alive := alive } rfl
  refine ⟨?_, ?_⟩
  · have := h.1
    simpa [writtenIds, UpstreamServer.init] using this
  · simpa [UpstreamServer.init] using h.2.1

/-- C7: `call_tool` issues a `tools/call` request with `{name, arguments}`
as params; a failure of the underlying exchange propagates unchanged, and
a successful response object yields its `result` member when present and
the raw response object otherwise. -/
theorem call_tool_spec (s : UpstreamServer) (name : String) (arguments : Json) :
    (∀ e s1,
       s._send_request "tools/call" (some (.obj [("name", .str name), ("arguments", arguments)]))
         = (.error e, s1) →
       s.call_tool name arguments = (.error e, s1)) ∧
    (∀ fs s1,
       s._send_request "tools/call" (some (.obj [("name", .str name), ("arguments", arguments)]))
         = (.ok (.obj fs), s1) →
       s.call_tool name arguments =
         ((match dictFind? fs "result" with
           | some v => .ok v
           | none => .ok (.obj fs)), s1)) := by
  constructor
  · intro e s1 h
    simp only [UpstreamServer.call_tool, h]
  · intro fs s1 h
    simp only [UpstreamServer.call_tool, h]
    cases hf : fs.find? (fun kv => kv.1 == "result") with
    | none =>
      have hany : fs.any (fun kv => kv.1 == "result") = false := by
        rw [any_eq_find?_isSome, hf]; rfl
      simp [pyMem, hany, dictFind?, hf]
    | some kv =>
      have hany : fs.any (fun kv => kv.1 == "result") = true := by
        rw [any_eq_find?_isSome, hf]; rfl
      simp [pyMem, hany, dictFind?, hf, Json.index]

/-- Concrete servers for the `call_tool` contract: one answering a
`result`-carrying line, one whose child closed its output. -/
def srvC7 : UpstreamServer :=
  { UpstreamServer.init "c7" "" "c" with
    proc := some { stdinWrites := [],
                   stdoutLines := [some (.obj [("id", .num 1), ("result", .str "ok")])],
                   alive := true } }

def srvC7closed : UpstreamServer :=
  { UpstreamServer.init "c7c" "" "c" with
    proc := some { stdinWrites := [], stdoutLines := [], alive := true } }

theorem call_tool_spec_witness :
    (srvC7.call_tool "echo" (.obj [])).1 = .ok (.str "ok") ∧
    (srvC7closed.call_tool "echo" (.obj [])).1 = .error (.upstreamClosed "c7c") := by
  constructor
  · have h := (call_tool_spec srvC7 "echo" (.obj [])).2
      [("id", .num 1), ("result", .str "ok")] _ rfl
    rw [h]
    rfl
  · have h := (call_tool_spec srvC7closed "echo" (.obj [])).1
      (.upstreamClosed "c7c") _ rfl
    rw [h]

/-- A started server whose child has closed its output before answering. -/
def srvClosed : UpstreamServer :=
  { UpstreamServer.init "a" "" "c" with
    proc := some { stdinWrites := [], stdoutLines := [], alive := true } }

/-- C1, counterexample: on a channel whose child closed its output, the
in-flight request fails with the upstream-closed condition and so does the
next one — but the next one still writes a request line to the child's
stdin (one line is written by each of the two attempts), contradicting
"fails without attempting to write". -/
theorem upstream_closed_counterexample :
    (srvClosed._send_request "ping" none).1 = .error (.upstreamClosed "a") ∧
    (srvClosed._send_request "ping" none).2.proc.map (fun p => p.stdinWrites.length) = some 1 ∧
    ((srvClosed._send_request "ping" none).2._send_request "ping" none).1 =
      .error (.upstreamClosed "a") ∧
    ((srvClosed._send_request "ping" none).2._send_request "ping" none).2.proc.map
      (fun p => p.stdinWrites.length) = some 2 := by
  exact ⟨rfl, rfl, rfl, rfl⟩

/-- C1 (amended): if the child closed its output before responding, the
in-flight request and every subsequent request on that channel fail with
the upstream-closed condition and the upstream is never resurrected (its
stdout stays at end-of-stream) — but each attempt, including every
subsequent one, still writes its request line to the child's stdin before
failing. -/
theorem upstream_closed_permanent (s : UpstreamServer) (p : Proc)
    (h : s.proc = some p) (hc : p.stdoutLines = [])
    (reqs : List (String × Option Json)) :
    (s.issueAll reqs).1 = reqs.map (fun _ => .error (.upstreamClosed s.server_id)) ∧
    ∃ p', (s.issueAll reqs).2.proc = some p' ∧ p'.stdoutLines = [] ∧
      p'.stdinWrites.length = p.stdinWrites.length + reqs.length := by
  have hall := issueAll_ids reqs s p h
  obtain ⟨-, -, p', hp', hpl, hlen⟩ := hall
  refine ⟨?_, p', hp', by rw [hpl, hc]; simp, hlen⟩
  clear hp' hpl hlen
  induction reqs generalizing s p with
  | nil => simp [UpstreamServer.issueAll]
  | cons rq rest ih =>
    obtain ⟨method, params⟩ := rq
    have hres := send_request_closed s p method params h hc
    have hstate := send_request_state s p method params h
    have hproc1 : (s._send_request method params).2.proc =
        some { stdinWrites := p.stdinWrites ++ [requestObj s._next_id method params],
               stdoutLines := [], alive := p.alive } := by
      rw [hstate, hc]
      rfl
    have hsid : (s._send_request method params).2.server_id = s.server_id := by
      rw [hstate]
    have hrest := ih _ _ hproc1 rfl
    rw [hsid] at hrest
    simp only [UpstreamServer.issueAll, List.map_cons]
    rw [hres, hrest]

theorem upstream_closed_permanent_witness :
    (srvClosed.issueAll [("ping", none), ("tools/call", some (.obj []))]).1 =
      [.error (.upstreamClosed "a"), .error (.upstreamClosed "a")] ∧
    ∃ p', (srvClosed.issueAll [("ping", none), ("tools/call", some (.obj []))]).2.proc = some p' ∧
      p'.stdoutLines = [] ∧ p'.stdinWrites.length = 2 := by
  have h := upstream_closed_permanent srvClosed
    { stdinWrites := [], stdoutLines := [], alive := true } rfl rfl
    [("ping", none), ("tools/call", some (.obj []))]
  exact ⟨h.1, h.2⟩

/-- Full equation of `_send_request` when the next line parses to a
response without an `error` member. -/
theorem send_request_no_error_eq (s : UpstreamServer) (p : Proc) (method : String)
    (params : Option Json) (resp : Json) (rest : List (Option Json))
    (h : s.proc = some p) (hl : p.stdoutLines = some resp :: rest)
    (hm : pyMem "error" resp = .ok false) :
    s._send_request method params =
      (.ok resp,
       { s with _next_id := s._next_id + 1,
                proc := some { stdinWrites := p.stdinWrites ++ [requestObj s._next_id method params],
                               stdoutLines := rest, alive := p.alive } }) := by
  simp only [UpstreamServer._send_request, h, hl, hm, List.tail_cons]

/-- The scripted child of the C4 counterexample: `initialize` is answered
normally, and `tools/list` is answered with a `result.tools` field that is
present but holds an empty list, while no top-level `tools` field exists. -/
def respToolsEmptyC4 : Json := .obj [("id", .num 2), ("result", .obj [("tools", .arr [])])]

def scC4 : ChildScript :=
  { launchOk := true,
    stdoutLines := [some (.obj [("id", .num 1), ("result", .obj [])]), some respToolsEmptyC4],
    alive := true }

/-- C4, counterexample: startup against a `tools/list` response in which
`result.tools` IS present (it holds the empty list) and no top-level
`tools` field exists still records the missing-tools diagnostic and sets
the catalog to empty — the Python expression
`resp.get("result", {}).get("tools") or resp.get("tools")` falls through
on the falsy present value.  This refutes "a diagnostic is recorded if and
only if neither field is present". -/
theorem fetch_tools_counterexample :
    ((UpstreamServer.init "a" "" "c").start scC4).1 = .ok () ∧
    ((UpstreamServer.init "a" "" "c").start scC4).2.1.tools = .arr [] ∧
    ((UpstreamServer.init "a" "" "c").start scC4).2.2 = [.noTools "a"] ∧
    respToolsEmptyC4.index "result" = .ok (.obj [("tools", .arr [])]) ∧
    (Json.obj [("tools", .arr [])]).index "tools" = .ok (.arr []) := by
  exact ⟨rfl, rfl, rfl, rfl, rfl⟩

/-- C4 (amended): during startup, after a successful `initialize`
exchange, the tool catalog is the value
`resp.get("result", {}).get("tools") or resp.get("tools")` of the
`tools/list` response — `result.tools` when that is present and truthy,
else the top-level `tools` field; exactly when that selected value is
null/None (in particular when neither field is present, but also when
`result.tools` is present yet falsy and `tools` is absent or null) the
catalog is set to the empty sequence and the missing-tools diagnostic is
recorded; in every one of these cases startup of the server succeeds. -/
theorem fetch_tools_spec (s : UpstreamServer) (sc : ChildScript) (r1 r2 : Json)
    (rest : List (Option Json)) (v : Json)
    (hok : sc.launchOk = true)
    (hlines : sc.stdoutLines = some r1 :: some r2 :: rest)
    (h1 : pyMem "error" r1 = .ok false)
    (h2 : pyMem "error" r2 = .ok false)
    (hx : extractTools r2 = .ok v) :
    (s.start sc).1 = .ok () ∧
    (s.start sc).2.1.tools = (if v = .null then .arr [] else v) ∧
    (s.start sc).2.2 = (if v = .null then [.noTools s.server_id] else []) := by
  have hstart : s.start sc =
      ({ s with proc := some { stdinWrites := [], stdoutLines := sc.stdoutLines,
                               alive := sc.alive } } :
        UpstreamServer)._initialize_and_fetch_tools := by
    simp [UpstreamServer.start, hok]
  set s1 : UpstreamServer :=
    { s with proc := some { stdinWrites := [], stdoutLines := sc.stdoutLines,
                            alive := sc.alive } } with hs1
  have e1 := send_request_no_error_eq s1
    { stdinWrites := [], stdoutLines := sc.stdoutLines, alive := sc.alive }
    "initialize" (some (.obj [("protocolVersion", .str "2024-11-05"), ("capabilities", .obj [])]))
    r1 (some r2 :: rest) rfl hlines h1
  have hp2 : (s1._send_request "initialize"
      (some (.obj [("protocolVersion", .str "2024-11-05"), ("capabilities", .obj [])]))).2.proc =
      some { stdinWrites := [requestObj s1._next_id "initialize"
               (some (.obj [("protocolVersion", .str "2024-11-05"), ("capabilities", .obj [])]))],
             stdoutLines := some r2 :: rest, alive := sc.alive } := by
    rw [e1]
    rfl
  have e2 := send_request_no_error_eq
    (s1._send_request "initialize"
      (some (.obj [("protocolVersion", .str "2024-11-05"), ("capabilities", .obj [])]))).2
    { stdinWrites := [requestObj s1._next_id "initialize"
        (some (.obj [("protocolVersion", .str "2024-11-05"), ("capabilities", .obj [])]))],
      stdoutLines := some r2 :: rest, alive := sc.alive }
    "tools/list" (some (.obj [("cursor", .null)])) r2 rest hp2 rfl h2
  rw [hstart]
  simp only [e1] at e2
  simp only [UpstreamServer._initialize_and_fetch_tools, e1, e2, hx]
  by_cases hv : v = .null <;> simp [hv]

def scC4w : ChildScript :=
  { launchOk := true,
    stdoutLines := [some (.obj [("id", .num 1), ("result", .obj [])]),
                    some (.obj [("id", .num 2), ("result", .obj [])])],
    alive := true }

theorem fetch_tools_spec_witness :
    ((UpstreamServer.init "w4" "" "c").start scC4w).1 = .ok () ∧
    ((UpstreamServer.init "w4" "" "c").start scC4w).2.1.tools = .arr [] ∧
    ((UpstreamServer.init "w4" "" "c").start scC4w).2.2 = [.noTools "w4"] := by
  have h := fetch_tools_spec (UpstreamServer.init "w4" "" "c") scC4w
    (.obj [("id", .num 1), ("result", .obj [])]) (.obj [("id", .num 2), ("result", .obj [])])
    [] .null rfl rfl rfl rfl rfl
  exact ⟨h.1, h.2.1.trans rfl, h.2.2.trans rfl⟩

/-! ### route_tool_call (C3) -/

/-- The scripted load reaching the C3 counterexample state: a single
configured server whose id is the empty string and which advertises one
tool named `t`. -/
def cfgC3 : List (ConfigEntry × ChildScript) :=
  [({ id := "", description := "", command := "c" },
    { launchOk := true,
      stdoutLines := [some (.obj [("id", .num 1), ("result", .obj [])]),
                      some (.obj [("id", .num 2),
                        ("result", .obj [("tools", .arr [.obj [("name", .str "t")]])])]),
                      some (.obj [("id", .num 3), ("result", .str "answer")])],
      alive := true })]

/-- C3, counterexample: after this successful load the name `t` IS
registered in the routing table (owned by the empty-id server), yet
`route_tool_call` fails with the unknown-tool condition and leaves the
whole manager untouched (no forwarding, no child I/O, even though the
owning server would have answered): `if not server_id:` conflates a falsy
(empty) server id with an absent entry. -/
theorem route_tool_call_counterexample :
    (UpstreamManager.init.load_and_start cfgC3).1 = .ok () ∧
    dictFind? (UpstreamManager.init.load_and_start cfgC3).2.1.tool_to_server (.str "t") =
      some "" ∧
    (UpstreamManager.init.load_and_start cfgC3).2.1.route_tool_call "t" (.obj []) =
      (.error (.unknownTool "t"), (UpstreamManager.init.load_and_start cfgC3).2.1) := by
  exact ⟨rfl, rfl, rfl⟩

/-- C3 (amended): `route_tool_call` fails with the unknown-tool condition
and performs no child-process I/O (the manager state is returned
untouched) both for every name absent from the routing table and for a
name registered to the empty server id; for every name registered to a
non-empty server id it forwards to the owning server's `call_tool`,
returning its result or propagating its failure, and writing the mutated
server back. -/
theorem route_tool_call_spec (m : UpstreamManager) (name : String) (arguments : Json) :
    (dictFind? m.tool_to_server (.str name) = none →
       m.route_tool_call name arguments = (.error (.unknownTool name), m)) ∧
    (dictFind? m.tool_to_server (.str name) = some "" →
       m.route_tool_call name arguments = (.error (.unknownTool name), m)) ∧
    (∀ sid, dictFind? m.tool_to_server (.str name) = some sid → sid ≠ "" →
       m.route_tool_call name arguments = m.forward sid name arguments) ∧
    (∀ sid srv, dictFind? m.servers sid = some srv →
       m.forward sid name arguments =
         ((srv.call_tool name arguments).1,
          { m with servers := dictInsert m.servers sid (srv.call_tool name arguments).2 })) := by
  refine ⟨?_, ?_, ?_, ?_⟩
  · intro h
    simp [UpstreamManager.route_tool_call, h]
  · intro h
    simp [UpstreamManager.route_tool_call, h]
  · intro sid h hne
    have hb : (sid == "") = false := by simp [hne]
    simp [UpstreamManager.route_tool_call, h, hb]
  · intro sid srv h
    simp [UpstreamManager.forward, h]

def mC3w : UpstreamManager :=
  { servers := [("a", srvC7)], tool_to_server := [(.str "t", "a")] }

theorem route_tool_call_spec_witness :
    mC3w.route_tool_call "absent" (.obj []) = (.error (.unknownTool "absent"), mC3w) ∧
    mC3w.route_tool_call "t" (.obj []) = mC3w.forward "a" "t" (.obj []) := by
  refine ⟨(route_tool_call_spec mC3w "absent" (.obj [])).1 rfl, ?_⟩
  exact (route_tool_call_spec mC3w "t" (.obj [])).2.2.1 "a" rfl (by decide)

/-! ### Counting helpers and registration lemmas -/

/-- Number of collision diagnostics recorded for the tool name `n`. -/
def collisionsFor (ds : List Diag) (n : Json) : Nat :=
  ds.countP (fun d => match d with
    | .collision n' _ _ => n' == n
    | _ => false)

theorem collisionsFor_append (ds1 ds2 : List Diag) (n : Json) :
    collisionsFor (ds1 ++ ds2) n = collisionsFor ds1 n + collisionsFor ds2 n :=
  List.countP_append _ _ _

/-- Number of registration attempts carrying the (truthy) name `n` in a
tool-descriptor list, exactly as the registration loop tests them. -/
def attemptCount (n : Json) (tools : List Json) : Nat :=
  tools.countP (fun t => match t.get "name" .null with
    | .ok v => v.truthy && v == n
    | .error _ => false)

/-- Registration never disturbs an existing routing-table binding
(first registration wins). -/
theorem registerTools_find_some (sid : String) (tools : List Json) :
    ∀ (table : List (Json × String)) (n : Json) (v : String),
    dictFind? table n = some v →
    dictFind? (registerTools sid table tools).2.1 n = some v := by
  induction tools with
  | nil => intro table n v h; simpa [registerTools] using h
  | cons tool rest ih =>
    intro table n v h
    cases hg : tool.get "name" .null with
    | error e => simp only [registerTools, hg]; simpa using h
    | ok name =>
      cases ht : name.truthy with
      | false =>
        simp only [registerTools, hg, ht, Bool.not_false, if_true]
        exact ih table n v h
      | true =>
        simp only [registerTools, hg, ht, Bool.not_true, Bool.false_eq_true, if_false]
        cases hf : dictFind? table name with
        | some firstId => simpa using ih table n v h
        | none =>
          apply ih
          rw [dictFind?_insert]
          have hnn : ¬ n = name := by
            intro e; rw [e, hf] at h; exact Option.noConfusion h
          simp [hnn, h]

/-- Every binding in the routing table after registration was either
already there or was added with the registering server's id and a truthy
name. -/
theorem registerTools_mem (sid : String) (tools : List Json) :
    ∀ (table : List (Json × String)) (kv : Json × String),
    kv ∈ (registerTools sid table tools).2.1 →
    kv ∈ table ∨ (kv.2 = sid ∧ kv.1.truthy = true) := by
  induction tools with
  | nil => intro table kv h; left; simpa [registerTools] using h
  | cons tool rest ih =>
    intro table kv h
    cases hg : tool.get "name" .null with
    | error e =>
      simp only [registerTools, hg] at h
      left; exact h
    | ok name =>
      cases ht : name.truthy with
      | false =>
        simp only [registerTools, hg, ht, Bool.not_false, if_true] at h
        exact ih table kv h
      | true =>
        simp only [registerTools, hg, ht, Bool.not_true, Bool.false_eq_true, if_false] at h
        cases hf : dictFind? table name with
        | some firstId =>
          rw [hf] at h
          simp only at h
          exact ih table kv h
        | none =>
          rw [hf] at h
          simp only at h
          rcases ih _ kv h with hin | hnew
          · rcases mem_dictInsert hin with hin2 | hkv
            · left; exact hin2
            · right
              refine ⟨by rw [hkv], by rw [hkv]; exact ht⟩
          · right; exact hnew

/-- Registration preserves key uniqueness of the routing table. -/
theorem registerTools_keysUnique (sid : String) (tools : List Json) :
    ∀ (table : List (Json × String)),
    table.Pairwise (fun a b => a.1 ≠ b.1) →
    ((registerTools sid table tools).2.1).Pairwise (fun a b => a.1 ≠ b.1) := by
  induction tools with
  | nil => intro table h; simpa [registerTools] using h
  | cons tool rest ih =>
    intro table h
    cases hg : tool.get "name" .null with
    | error e => simp only [registerTools, hg]; simpa using h
    | ok name =>
      cases ht : name.truthy with
      | false =>
        simp only [registerTools, hg, ht, Bool.not_false, if_true]
        exact ih table h
      | true =>
        simp only [registerTools, hg, ht, Bool.not_true, Bool.false_eq_true, if_false]
        cases hf : dictFind? table name with
        | some firstId => simpa using ih table h
        | none =>
          apply ih
          rw [dictInsert_of_find?_eq_none _ hf]
          rw [List.pairwise_append]
          refine ⟨h, List.pairwise_singleton _ _, ?_⟩
          intro a ha b hb
          rw [List.mem_singleton] at hb
          rw [hb]
          exact (dictFind?_eq_none_iff.mp hf) a ha

/-- When a name is already bound in the table, every later attempt at it
produces exactly one collision diagnostic. -/
theorem registerTools_count_some (sid : String) (tools : List Json) :
    ∀ (table : List (Json × String)) (n : Json) (v : String),
    (registerTools sid table tools).1 = .ok () →
    dictFind? table n = some v →
    collisionsFor (registerTools sid table tools).2.2 n = attemptCount n tools := by
  induction tools with
  | nil => intro table n v hok h; simp [registerTools, collisionsFor, attemptCount]
  | cons tool rest ih =>
    intro table n v hok h
    cases hg : tool.get "name" .null with
    | error e => simp [registerTools, hg] at hok
    | ok name =>
      have hatt : attemptCount n (tool :: rest) =
          attemptCount n rest + (if (name.truthy && name == n) = true then 1 else 0) := by
        simp only [attemptCount, List.countP_cons, hg]
      cases ht : name.truthy with
      | false =>
        simp only [registerTools, hg, ht, Bool.not_false, if_true] at hok ⊢
        rw [hatt, ih table n v hok h]
        simp [ht]
      | true =>
        simp only [registerTools, hg, ht, Bool.not_true, Bool.false_eq_true, if_false]
          at hok ⊢
        cases hf : dictFind? table name with
        | some firstId =>
          simp only [hf] at hok ⊢
          by_cases hnn : name = n
          · subst hnn
            have hhead : collisionsFor
                (Diag.collision name firstId sid :: (registerTools sid table rest).2.2) name =
                collisionsFor (registerTools sid table rest).2.2 name + 1 := by
              simp [collisionsFor, List.countP_cons]
            rw [hhead, ih table name v hok h, hatt]
            simp [ht]
          · have hhead : collisionsFor
                (Diag.collision name firstId sid :: (registerTools sid table rest).2.2) n =
                collisionsFor (registerTools sid table rest).2.2 n := by
              simp [collisionsFor, List.countP_cons, hnn]
            rw [hhead, ih table n v hok h, hatt]
            simp [hnn]
        | none =>
          simp only [hf] at hok ⊢
          have hnn : ¬ name = n := by
            intro e; rw [e, h] at hf; exact Option.noConfusion hf
          have h2 : dictFind? (dictInsert table name sid) n = some v := by
            rw [dictFind?_insert]
            have : ¬ n = name := fun e => hnn e.symm
            simp [this, h]
          rw [ih _ n v hok h2, hatt]
          simp [hnn]

/-- When a name is fresh, the first attempt at it registers the calling
server and each further attempt produces one collision diagnostic. -/
theorem registerTools_count_none (sid : String) (tools : List Json) :
    ∀ (table : List (Json × String)) (n : Json),
    (registerTools sid table tools).1 = .ok () →
    dictFind? table n = none →
    dictFind? (registerTools sid table tools).2.1 n =
      (if 0 < attemptCount n tools then some sid else none) ∧
    collisionsFor (registerTools sid table tools).2.2 n = attemptCount n tools - 1 := by
  induction tools with
  | nil =>
    intro table n hok h
    simp [registerTools, collisionsFor, attemptCount, h]
  | cons tool rest ih =>
    intro table n hok h
    cases hg : tool.get "name" .null with
    | error e => simp [registerTools, hg] at hok
    | ok name =>
      have hatt : attemptCount n (tool :: rest) =
          attemptCount n rest + (if (name.truthy && name == n) = true then 1 else 0) := by
        simp only [attemptCount, List.countP_cons, hg]
      cases ht : name.truthy with
      | false =>
        simp only [registerTools, hg, ht, Bool.not_false, if_true] at hok ⊢
        rw [hatt]
        have := ih table n hok h
        simpa [ht] using this
      | true =>
        simp only [registerTools, hg, ht, Bool.not_true, Bool.false_eq_true, if_false]
          at hok ⊢
        cases hf : dictFind? table name with
        | some firstId =>
          simp only [hf] at hok ⊢
          have hnn : ¬ name = n := by
            intro e; rw [e, h] at hf; exact Option.noConfusion hf
          obtain ⟨h1, h2⟩ := ih table n hok h
          constructor
          · rw [hatt]
            simpa [hnn] using h1
          · have hhead : collisionsFor
                (Diag.collision name firstId sid :: (registerTools sid table rest).2.2) n =
                collisionsFor (registerTools sid table rest).2.2 n := by
              simp [collisionsFor, List.countP_cons, hnn]
            rw [hhead, h2, hatt]
            simp [hnn]
        | none =>
          simp only [hf] at hok ⊢
          by_cases hnn : name = n
          · subst hnn
            have hfind : dictFind? (dictInsert table name sid) name = some sid := by
              rw [dictFind?_insert]
              simp
            constructor
            · rw [registerTools_find_some sid rest _ name sid hfind, hatt]
              simp [ht]
            · rw [registerTools_count_some sid rest _ name sid hok hfind, hatt]
              simp [ht]
          · have h2 : dictFind? (dictInsert table name sid) n = none := by
              rw [dictFind?_insert]
              have : ¬ n = name := fun e => hnn e.symm
              simp [this, h]
            obtain ⟨h1, hcol⟩ := ih _ n hok h2
            rw [hatt]
            refine ⟨?_, ?_⟩
            · rw [h1]
              simp [hnn]
            · rw [hcol]
              simp [hnn]

/-! ### Derived descriptions of a load -/

/-- The catalog a configuration entry's server computes when its startup
succeeds (the value extracted from its `tools/list` response). -/
def startCatalog (e : ConfigEntry) (sc : ChildScript) : Except Err Json :=
  match (UpstreamServer.init e.id e.description e.command).start sc with
  | (.ok _, s', _) => .ok s'.tools
  | (.error err, _, _) => .error err

/-- The server object produced by starting one configuration entry. -/
def startedServer (e : ConfigEntry) (sc : ChildScript) : UpstreamServer :=
  ((UpstreamServer.init e.id e.description e.command).start sc).2.1

/-- Registration attempts for name `n` contributed by one entry's server. -/
def entryAttempts (n : Json) (e : ConfigEntry) (sc : ChildScript) : Nat :=
  match startCatalog e sc with
  | .ok t =>
    match pyIter t with
    | .ok l => attemptCount n l
    | .error _ => 0
  | .error _ => 0

/-- Total registration attempts for name `n` over a configuration. -/
def cfgAttemptCount (n : Json) (cfg : List (ConfigEntry × ChildScript)) : Nat :=
  (cfg.map (fun es => entryAttempts n es.1 es.2)).sum

/-- The id of the first server in configuration order that attempts to
register the name `n`. -/
def firstOwner (n : Json) : List (ConfigEntry × ChildScript) → Option String
  | [] => none
  | (e, sc) :: rest => if 0 < entryAttempts n e sc then some e.id else firstOwner n rest

/-- Every routing-table value names a registered server. -/
def managerInv (m : UpstreamManager) : Prop :=
  ∀ kv ∈ m.tool_to_server, (dictFind? m.servers kv.2).isSome = true

/-- Every routing-table key is a truthy value. -/
def tableKeysTruthy (m : UpstreamManager) : Prop :=
  ∀ kv ∈ m.tool_to_server, kv.1.truthy = true

/-- The handshake records either no diagnostic or exactly the
missing-tools one. -/
theorem ifat_diags (s : UpstreamServer) :
    (s._initialize_and_fetch_tools).2.2 = [] ∨
    (s._initialize_and_fetch_tools).2.2 = [Diag.noTools s.server_id] := by
  unfold UpstreamServer._initialize_and_fetch_tools
  rcases h1 : s._send_request "initialize"
      (some (.obj [("protocolVersion", .str "2024-11-05"), ("capabilities", .obj [])]))
    with ⟨r1, s2⟩
  simp only [h1]
  cases r1 with
  | error e => left; rfl
  | ok resp1 =>
    rcases h2 : s2._send_request "tools/list" (some (.obj [("cursor", .null)]))
      with ⟨r2, s3⟩
    simp only [h2]
    cases r2 with
    | error e => left; rfl
    | ok resp2 =>
      cases hx : extractTools resp2 with
      | error e => left; simp [hx]
      | ok t =>
        by_cases hv : t = .null
        · right; simp [hx, hv]
        · left; simp [hx, hv]

/-- Server startup records either no diagnostic or the missing-tools
one — never a collision. -/
theorem start_diags (s : UpstreamServer) (sc : ChildScript) :
    (s.start sc).2.2 = [] ∨ (s.start sc).2.2 = [Diag.noTools s.server_id] := by
  unfold UpstreamServer.start
  cases hl : sc.launchOk with
  | false => left; simp [hl]
  | true =>
    simp only [hl, Bool.not_true, Bool.false_eq_true, if_false]
    have h := ifat_diags
      { s with proc := some { stdinWrites := [], stdoutLines := sc.stdoutLines,
                              alive := sc.alive } }
    simpa using h

theorem start_collisions_zero (s : UpstreamServer) (sc : ChildScript) (n : Json) :
    collisionsFor (s.start sc).2.2 n = 0 := by
  rcases start_diags s sc with h | h <;> rw [h] <;> simp [collisionsFor]

/-- `startCatalog` of a successfully started entry is its server's stored
catalog. -/
theorem startCatalog_of_ok (e : ConfigEntry) (sc : ChildScript)
    (h : ((UpstreamServer.init e.id e.description e.command).start sc).1 = .ok ()) :
    startCatalog e sc = .ok (startedServer e sc).tools := by
  rcases hst : (UpstreamServer.init e.id e.description e.command).start sc with ⟨r, s', ds⟩
  rw [hst] at h
  cases r with
  | error err => simp at h
  | ok u => simp [startCatalog, startedServer, hst]

/-! ### Invariants of load_and_start -/

/-- A load never disturbs an existing routing-table binding. -/
theorem load_find_some (cfg : List (ConfigEntry × ChildScript)) :
    ∀ (m : UpstreamManager) (n : Json) (v : String),
    dictFind? m.tool_to_server n = some v →
    dictFind? ((m.load_and_start cfg).2.1).tool_to_server n = some v := by
  induction cfg with
  | nil => intro m n v h; simpa [UpstreamManager.load_and_start] using h
  | cons es rest ih =>
    intro m n v h
    obtain ⟨entry, sc⟩ := es
    rcases hst : (UpstreamServer.init entry.id entry.description entry.command).start sc
      with ⟨r, server', ds⟩
    simp only [UpstreamManager.load_and_start, hst]
    cases r with
    | error e => simpa using h
    | ok u =>
      cases hit : pyIter server'.tools with
      | error e => simp only [hit]; simpa using h
      | ok toolList =>
        simp only [hit]
        have hfs := registerTools_find_some entry.id toolList m.tool_to_server n v h
        cases hr2 : (registerTools entry.id m.tool_to_server toolList).1 with
        | error e =>
          simp only [hr2]
          simpa using hfs
        | ok u2 =>
          simp only [hr2]
          exact ih _ n v (by simpa using hfs)

/-- A load keeps every routing-table value pointing at a registered
server, whether it completes or aborts partway. -/
theorem load_managerInv (cfg : List (ConfigEntry × ChildScript)) :
    ∀ (m : UpstreamManager), managerInv m → managerInv (m.load_and_start cfg).2.1 := by
  induction cfg with
  | nil => intro m h; simpa [UpstreamManager.load_and_start] using h
  | cons es rest ih =>
    intro m h
    obtain ⟨entry, sc⟩ := es
    rcases hst : (UpstreamServer.init entry.id entry.description entry.command).start sc
      with ⟨r, server', ds⟩
    simp only [UpstreamManager.load_and_start, hst]
    cases r with
    | error e => simpa using h
    | ok u =>
      have h1 : managerInv
          { servers := dictInsert m.servers entry.id server',
            tool_to_server := m.tool_to_server } := by
        intro kv hkv
        rw [dictFind?_insert]
        by_cases he : kv.2 = entry.id
        · simp [he]
        · simpa [he] using h kv hkv
      cases hit : pyIter server'.tools with
      | error e => simp only [hit]; exact h1
      | ok toolList =>
        simp only [hit]
        have h2 : managerInv
            { servers := dictInsert m.servers entry.id server',
              tool_to_server := (registerTools entry.id m.tool_to_server toolList).2.1 } := by
          intro kv hkv
          rcases registerTools_mem entry.id toolList m.tool_to_server kv hkv with hin | hnew
          · exact h1 kv hin
          · rw [dictFind?_insert]
            simp [hnew.1]
        cases hr2 : (registerTools entry.id m.tool_to_server toolList).1 with
        | error e => simp only [hr2]; exact h2
        | ok u2 => simp only [hr2]; exact ih _ h2

/-- A load only ever adds truthy keys to the routing table. -/
theorem load_keysTruthy (cfg : List (ConfigEntry × ChildScript)) :
    ∀ (m : UpstreamManager), tableKeysTruthy m → tableKeysTruthy (m.load_and_start cfg).2.1 := by
  induction cfg with
  | nil => intro m h; simpa [UpstreamManager.load_and_start] using h
  | cons es rest ih =>
    intro m h
    obtain ⟨entry, sc⟩ := es
    rcases hst : (UpstreamServer.init entry.id entry.description entry.command).start sc
      with ⟨r, server', ds⟩
    simp only [UpstreamManager.load_and_start, hst]
    cases r with
    | error e => simpa using h
    | ok u =>
      cases hit : pyIter server'.tools with
      | error e => simp only [hit]; exact h
      | ok toolList =>
        simp only [hit]
        have h2 : tableKeysTruthy
            { servers := dictInsert m.servers entry.id server',
              tool_to_server := (registerTools entry.id m.tool_to_server toolList).2.1 } := by
          intro kv hkv
          rcases registerTools_mem entry.id toolList m.tool_to_server kv hkv with hin | hnew
          · exact h kv hin
          · exact hnew.2
        cases hr2 : (registerTools entry.id m.tool_to_server toolList).1 with
        | error e => simp only [hr2]; exact h2
        | ok u2 => simp only [hr2]; exact ih _ h2

/-- A load preserves key uniqueness of the routing table. -/
theorem load_keysUnique (cfg : List (ConfigEntry × ChildScript)) :
    ∀ (m : UpstreamManager),
    m.tool_to_server.Pairwise (fun a b => a.1 ≠ b.1) →
    ((m.load_and_start cfg).2.1).tool_to_server.Pairwise (fun a b => a.1 ≠ b.1) := by
  induction cfg with
  | nil => intro m h; simpa [UpstreamManager.load_and_start] using h
  | cons es rest ih =>
    intro m h
    obtain ⟨entry, sc⟩ := es
    rcases hst : (UpstreamServer.init entry.id entry.description entry.command).start sc
      with ⟨r, server', ds⟩
    simp only [UpstreamManager.load_and_start, hst]
    cases r with
    | error e => simpa using h
    | ok u =>
      cases hit : pyIter server'.tools with
      | error e => simp only [hit]; exact h
      | ok toolList =>
        simp only [hit]
        have h2 := registerTools_keysUnique entry.id toolList m.tool_to_server h
        cases hr2 : (registerTools entry.id m.tool_to_server toolList).1 with
        | error e => simp only [hr2]; exact h2
        | ok u2 => simp only [hr2]; exact ih _ h2

/-- A registered server survives a load untouched when no later
configuration entry reuses its id. -/
theorem load_servers_find (cfg : List (ConfigEntry × ChildScript)) :
    ∀ (m : UpstreamManager) (x : String) (srv : UpstreamServer),
    dictFind? m.servers x = some srv →
    (∀ es ∈ cfg, es.1.id ≠ x) →
    dictFind? ((m.load_and_start cfg).2.1).servers x = some srv := by
  induction cfg with
  | nil => intro m x srv h _; simpa [UpstreamManager.load_and_start] using h
  | cons es rest ih =>
    intro m x srv h hids
    obtain ⟨entry, sc⟩ := es
    have hne : entry.id ≠ x := hids (entry, sc) (List.mem_cons_self _ _)
    rcases hst : (UpstreamServer.init entry.id entry.description entry.command).start sc
      with ⟨r, server', ds⟩
    simp only [UpstreamManager.load_and_start, hst]
    have hpres : dictFind? (dictInsert m.servers entry.id server') x = some srv := by
      rw [dictFind?_insert]
      have : ¬ x = entry.id := fun e => hne e.symm
      simp [this, h]
    cases r with
    | error e => simpa using h
    | ok u =>
      cases hit : pyIter server'.tools with
      | error e => simp only [hit]; exact hpres
      | ok toolList =>
        simp only [hit]
        cases hr2 : (registerTools entry.id m.tool_to_server toolList).1 with
        | error e => simp only [hr2]; exact hpres
        | ok u2 =>
          simp only [hr2]
          exact ih _ x srv hpres (fun es hm => hids es (List.mem_cons_of_mem _ hm))

/-- After a successful load with unique configured ids, each entry's id is
bound in the servers registry to exactly the server its startup produced,
and that startup succeeded. -/
theorem load_servers_mem (cfg : List (ConfigEntry × ChildScript)) :
    ∀ (m : UpstreamManager) (entry : ConfigEntry) (sc : ChildScript),
    (m.load_and_start cfg).1 = .ok () →
    (entry, sc) ∈ cfg →
    (cfg.map (fun es => es.1.id)).Nodup →
    dictFind? ((m.load_and_start cfg).2.1).servers entry.id = some (startedServer entry sc) ∧
    ((UpstreamServer.init entry.id entry.description entry.command).start sc).1 = .ok () := by
  induction cfg with
  | nil => intro m entry sc _ hmem _; simp at hmem
  | cons es rest ih =>
    intro m entry sc hload hmem hnodup
    obtain ⟨e0, sc0⟩ := es
    rcases hst : (UpstreamServer.init e0.id e0.description e0.command).start sc0
      with ⟨r, server', ds⟩
    simp only [UpstreamManager.load_and_start, hst] at hload ⊢
    cases r with
    | error e => simp at hload
    | ok u =>
      cases hit : pyIter server'.tools with
      | error e => simp [hit] at hload
      | ok toolList =>
        simp only [hit] at hload
        simp only [hit]
        cases hr2 : (registerTools e0.id m.tool_to_server toolList).1 with
        | error e => simp [hr2] at hload
        | ok u2 =>
          simp only [hr2] at hload
          simp only [hr2]
          rw [List.map_cons, List.nodup_cons] at hnodup
          rcases List.mem_cons.mp hmem with hhead | hrest
          · injection hhead with he hsc
            subst he
            subst hsc
            have hsrv : startedServer entry sc = server' := by
              rw [startedServer, hst]
            have hfind : dictFind? (dictInsert m.servers entry.id server') entry.id =
                some server' := by
              rw [dictFind?_insert]
              simp
            refine ⟨?_, by rw [hst]⟩
            rw [hsrv]
            refine load_servers_find rest _ entry.id server' hfind ?_
            intro es hm he2
            exact hnodup.1 (he2 ▸ List.mem_map.mpr ⟨es, hm, rfl⟩)
          · exact ih _ entry sc hload hrest hnodup.2

/-- When a name is already bound before a load, every attempt at it during
the load produces exactly one collision diagnostic. -/
theorem load_count_some (cfg : List (ConfigEntry × ChildScript)) :
    ∀ (m : UpstreamManager) (n : Json) (v : String),
    (m.load_and_start cfg).1 = .ok () →
    dictFind? m.tool_to_server n = some v →
    collisionsFor (m.load_and_start cfg).2.2 n = cfgAttemptCount n cfg := by
  induction cfg with
  | nil =>
    intro m n v _ _
    simp [UpstreamManager.load_and_start, collisionsFor, cfgAttemptCount]
  | cons es rest ih =>
    intro m n v hload h
    obtain ⟨entry, sc⟩ := es
    rcases hst : (UpstreamServer.init entry.id entry.description entry.command).start sc
      with ⟨r, server', ds⟩
    simp only [UpstreamManager.load_and_start, hst] at hload ⊢
    cases r with
    | error e => simp at hload
    | ok u =>
      cases hit : pyIter server'.tools with
      | error e => simp [hit] at hload
      | ok toolList =>
        simp only [hit] at hload ⊢
        cases hr2 : (registerTools entry.id m.tool_to_server toolList).1 with
        | error e => simp [hr2] at hload
        | ok u2 =>
          simp only [hr2] at hload ⊢
          have hds : collisionsFor ds n = 0 := by
            have h0 := start_collisions_zero
              (UpstreamServer.init entry.id entry.description entry.command) sc n
            rw [hst] at h0
            exact h0
          have hreg := registerTools_count_some entry.id toolList m.tool_to_server n v hr2 h
          have h2 : dictFind? (registerTools entry.id m.tool_to_server toolList).2.1 n =
              some v := registerTools_find_some entry.id toolList m.tool_to_server n v h
          have hrest := ih _ n v hload (by simpa using h2)
          have hea : entryAttempts n entry sc = attemptCount n toolList := by
            simp [entryAttempts, startCatalog, hst, hit]
          rw [collisionsFor_append, collisionsFor_append, hds, hreg, hrest]
          simp only [cfgAttemptCount, List.map_cons, List.sum_cons] at hrest ⊢
          simp [hea]

/-- When a name is fresh before a load, the first configured server that
advertises it ends up owning it, and each further attempt produces one
collision diagnostic. -/
theorem load_count_none (cfg : List (ConfigEntry × ChildScript)) :
    ∀ (m : UpstreamManager) (n : Json),
    (m.load_and_start cfg).1 = .ok () →
    dictFind? m.tool_to_server n = none →
    dictFind? ((m.load_and_start cfg).2.1).tool_to_server n = firstOwner n cfg ∧
    collisionsFor (m.load_and_start cfg).2.2 n = cfgAttemptCount n cfg - 1 := by
  induction cfg with
  | nil =>
    intro m n _ h
    simp [UpstreamManager.load_and_start, collisionsFor, cfgAttemptCount, firstOwner, h]
  | cons es rest ih =>
    intro m n hload h
    obtain ⟨entry, sc⟩ := es
    rcases hst : (UpstreamServer.init entry.id entry.description entry.command).start sc
      with ⟨r, server', ds⟩
    simp only [UpstreamManager.load_and_start, hst] at hload ⊢
    cases r with
    | error e => simp at hload
    | ok u =>
      cases hit : pyIter server'.tools with
      | error e => simp [hit] at hload
      | ok toolList =>
        simp only [hit] at hload ⊢
        cases hr2 : (registerTools entry.id m.tool_to_server toolList).1 with
        | error e => simp [hr2] at hload
        | ok u2 =>
          simp only [hr2] at hload ⊢
          have hds : collisionsFor ds n = 0 := by
            have h0 := start_collisions_zero
              (UpstreamServer.init entry.id entry.description entry.command) sc n
            rw [hst] at h0
            exact h0
          have hea : entryAttempts n entry sc = attemptCount n toolList := by
            simp [entryAttempts, startCatalog, hst, hit]
          obtain ⟨hfind2, hcol2⟩ :=
            registerTools_count_none entry.id toolList m.tool_to_server n hr2 h
          by_cases hpos : 0 < attemptCount n toolList
          · rw [if_pos hpos] at hfind2
            have hfofull : firstOwner n ((entry, sc) :: rest) = some entry.id := by
              simp [firstOwner, hea, hpos]
            constructor
            · rw [hfofull]
              exact load_find_some rest _ n entry.id (by simpa using hfind2)
            · have hrest := load_count_some rest _ n entry.id hload (by simpa using hfind2)
              rw [collisionsFor_append, collisionsFor_append, hds, hcol2, hrest]
              simp only [cfgAttemptCount, List.map_cons, List.sum_cons, hea]
              omega
          · have hz : attemptCount n toolList = 0 := Nat.eq_zero_of_not_pos hpos
            rw [if_neg hpos] at hfind2
            obtain ⟨hf, hc⟩ := ih _ n hload (by simpa using hfind2)
            have hfofull : firstOwner n ((entry, sc) :: rest) = firstOwner n rest := by
              simp [firstOwner, hea, hz]
            constructor
            · rw [hfofull]
              exact hf
            · rw [collisionsFor_append, collisionsFor_append, hds, hcol2, hc]
              simp only [cfgAttemptCount, List.map_cons, List.sum_cons, hea, hz]
              omega

/-! ### Routing-table collision policy (C2) and routing-value validity (C9) -/

/-- A child script advertising a single tool named `t`. -/
def scAdvT : ChildScript :=
  { launchOk := true,
    stdoutLines := [some (.obj [("id", .num 1), ("result", .obj [])]),
                    some (.obj [("id", .num 2),
                      ("result", .obj [("tools", .arr [.obj [("name", .str "t")]])])]),
                    some (.obj [("id", .num 3), ("result", .str "answer")])],
    alive := true }

/-- Two servers advertising the same tool name `t`; the first registrant's
id is the empty string. -/
def cfgC2 : List (ConfigEntry × ChildScript) :=
  [({ id := "", description := "", command := "c1" }, scAdvT),
   ({ id := "b", description := "", command := "c2" }, scAdvT)]

/-- C2, counterexample: in this load a second server advertises a name
already registered; the first registration wins (the table maps `t` to the
first server's id, the empty string) and exactly one collision diagnostic
is recorded — but `route_tool_call` on `t` does NOT forward to the server
that registered it first: it fails with the unknown-tool condition,
because `if not server_id:` treats the empty-string id as unregistered. -/
theorem routing_collision_counterexample :
    (UpstreamManager.init.load_and_start cfgC2).1 = .ok () ∧
    (UpstreamManager.init.load_and_start cfgC2).2.2 = [.collision (.str "t") "" "b"] ∧
    dictFind? (UpstreamManager.init.load_and_start cfgC2).2.1.tool_to_server (.str "t") =
      some "" ∧
    (UpstreamManager.init.load_and_start cfgC2).2.1.route_tool_call "t" (.obj []) =
      (.error (.unknownTool "t"), (UpstreamManager.init.load_and_start cfgC2).2.1) := by
  exact ⟨rfl, rfl, rfl, rfl⟩

/-- C2 (amended): the routing table built by a successful load maps every
tool name to exactly one server id (its keys are unique); when a name has
exactly two registration attempts over the load, the first registration
wins — the routing table binds the name to the first registrant's id and
that binding is never changed — a collision diagnostic is recorded exactly
once for that name, and, provided the first registrant's id is non-empty,
`route_tool_call` on that name forwards to the server that registered it
first. -/
theorem routing_first_registration_wins (cfg : List (ConfigEntry × ChildScript))
    (n : Json) (nm : String) (sid : String) (args : Json)
    (hload : (UpstreamManager.init.load_and_start cfg).1 = .ok ())
    (hn : n = .str nm)
    (hcount : cfgAttemptCount n cfg = 2)
    (hfirst : firstOwner n cfg = some sid)
    (hsid : sid ≠ "") :
    ((UpstreamManager.init.load_and_start cfg).2.1).tool_to_server.Pairwise
      (fun a b => a.1 ≠ b.1) ∧
    dictFind? ((UpstreamManager.init.load_and_start cfg).2.1).tool_to_server n = some sid ∧
    collisionsFor (UpstreamManager.init.load_and_start cfg).2.2 n = 1 ∧
    (UpstreamManager.init.load_and_start cfg).2.1.route_tool_call nm args =
      (UpstreamManager.init.load_and_start cfg).2.1.forward sid nm args := by
  have hnone : dictFind? UpstreamManager.init.tool_to_server n = none := rfl
  obtain ⟨hf, hc⟩ := load_count_none cfg UpstreamManager.init n hload hnone
  have huniq := load_keysUnique cfg UpstreamManager.init List.Pairwise.nil
  rw [hfirst] at hf
  refine ⟨huniq, hf, by rw [hc, hcount], ?_⟩
  subst hn
  have hb : (sid == "") = false := by simp [hsid]
  simp [UpstreamManager.route_tool_call, hf, hb]

/-- Two servers with distinct non-empty ids both advertising `t`. -/
def cfgC2w : List (ConfigEntry × ChildScript) :=
  [({ id := "a", description := "", command := "c1" }, scAdvT),
   ({ id := "b", description := "", command := "c2" }, scAdvT)]

theorem routing_first_registration_wins_witness :
    dictFind? (UpstreamManager.init.load_and_start cfgC2w).2.1.tool_to_server (.str "t") =
      some "a" ∧
    collisionsFor (UpstreamManager.init.load_and_start cfgC2w).2.2 (.str "t") = 1 ∧
    (UpstreamManager.init.load_and_start cfgC2w).2.1.route_tool_call "t" (.obj []) =
      (UpstreamManager.init.load_and_start cfgC2w).2.1.forward "a" "t" (.obj []) := by
  have h := routing_first_registration_wins cfgC2w (.str "t") "t" "a" (.obj [])
    rfl rfl rfl rfl (by decide)
  exact ⟨h.2.1, h.2.2.1, h.2.2.2⟩

/-- C9: after a load from a fresh manager — complete or aborted partway by
a startup failure — every server id stored as a value in the routing table
is a key of the servers map, so the owning-server lookup inside
`route_tool_call` (the unguarded `self.servers[server_id]`) always
succeeds for a registered name. -/
theorem routing_values_valid (cfg : List (ConfigEntry × ChildScript)) (n : String) :
    managerInv (UpstreamManager.init.load_and_start cfg).2.1 ∧
    (∀ sid, dictFind? ((UpstreamManager.init.load_and_start cfg).2.1).tool_to_server
        (.str n) = some sid →
      (dictFind? ((UpstreamManager.init.load_and_start cfg).2.1).servers sid).isSome =
        true) := by
  have hinv := load_managerInv cfg UpstreamManager.init
    (by intro kv hkv; simp [UpstreamManager.init] at hkv)
  exact ⟨hinv, fun sid hsid => hinv _ (dictFind?_mem hsid)⟩

/-- A one-server load used to instantiate C9. -/
def cfgC9w : List (ConfigEntry × ChildScript) :=
  [({ id := "a", description := "", command := "c1" }, scAdvT)]

theorem routing_values_valid_witness :
    (dictFind? ((UpstreamManager.init.load_and_start cfgC9w).2.1).servers "a").isSome =
      true := by
  exact (routing_values_valid cfgC9w "t").2 "a" rfl

/-! ### get_server_tools (C8) -/

/-- C8: `get_server_tools` fails with the unknown-server condition exactly
for ids not registered in the manager; for a registered id it returns that
server's stored catalog, and after a successful load with unique
configured ids this is exactly the catalog computed from that server's
`tools/list` response during startup. -/
theorem get_server_tools_spec :
    (∀ (m : UpstreamManager) (sid : String), dictFind? m.servers sid = none →
       m.get_server_tools sid = .error (.unknownServer sid)) ∧
    (∀ (m : UpstreamManager) (sid : String) (srv : UpstreamServer),
       dictFind? m.servers sid = some srv → m.get_server_tools sid = .ok srv.tools) ∧
    (∀ (cfg : List (ConfigEntry × ChildScript)) (entry : ConfigEntry) (sc : ChildScript),
       (UpstreamManager.init.load_and_start cfg).1 = .ok () →
       (entry, sc) ∈ cfg →
       (cfg.map (fun es => es.1.id)).Nodup →
       (UpstreamManager.init.load_and_start cfg).2.1.get_server_tools entry.id =
         startCatalog entry sc) := by
  refine ⟨?_, ?_, ?_⟩
  · intro m sid h
    simp [UpstreamManager.get_server_tools, h]
  · intro m sid srv h
    simp [UpstreamManager.get_server_tools, h]
  · intro cfg entry sc hload hmem hnodup
    obtain ⟨hfind, hok⟩ := load_servers_mem cfg UpstreamManager.init entry sc hload hmem hnodup
    rw [startCatalog_of_ok entry sc hok]
    simp [UpstreamManager.get_server_tools, hfind]

def eC8w : ConfigEntry := { id := "s1", description := "", command := "echo-tool-server" }

def scC8w : ChildScript :=
  { launchOk := true,
    stdoutLines := [some (.obj [("id", .num 1), ("result", .obj [])]),
                    some (.obj [("id", .num 2),
                      ("result", .obj [("tools", .arr [.obj [("name", .str "echo")]])])])],
    alive := true }

def cfgC8w : List (ConfigEntry × ChildScript) := [(eC8w, scC8w)]

def mC8w : UpstreamManager :=
  { servers := [("a", UpstreamServer.init "a" "" "c")], tool_to_server := [] }

theorem get_server_tools_spec_witness :
    mC8w.get_server_tools "zz" = .error (.unknownServer "zz") ∧
    mC8w.get_server_tools "a" = .ok (UpstreamServer.init "a" "" "c").tools ∧
    (UpstreamManager.init.load_and_start cfgC8w).2.1.get_server_tools eC8w.id =
      startCatalog eC8w scC8w := by
  refine ⟨get_server_tools_spec.1 mC8w "zz" rfl,
    get_server_tools_spec.2.1 mC8w "a" (UpstreamServer.init "a" "" "c") rfl, ?_⟩
  exact get_server_tools_spec.2.2 cfgC8w eC8w scC8w rfl (by simp [cfgC8w]) (by simp [cfgC8w])

/-! ### Visibility of falsy-named tool descriptors (C10) -/

/-- Everything accumulated, and every element of every iterable catalog in
the list, ends up in a successful `get_all_tools` result. -/
theorem getAllToolsGo_mem :
    ∀ (lst : List (String × UpstreamServer)) (acc ts : List Json),
    getAllToolsGo lst acc = .ok ts →
    (∀ t ∈ acc, t ∈ ts) ∧
    (∀ kv ∈ lst, ∀ l, pyIter kv.2.tools = .ok l → ∀ t ∈ l, t ∈ ts) := by
  intro lst
  induction lst with
  | nil =>
    intro acc ts h
    simp only [getAllToolsGo, Except.ok.injEq] at h
    subst h
    exact ⟨fun t ht => ht, by simp⟩
  | cons kv rest ih =>
    intro acc ts h
    simp only [getAllToolsGo] at h
    cases hi : pyIter kv.2.tools with
    | error e => simp [hi] at h
    | ok l =>
      simp only [hi] at h
      obtain ⟨hacc, hrest⟩ := ih (acc ++ l) ts h
      refine ⟨fun t ht => hacc t (List.mem_append_left _ ht), ?_⟩
      intro kv' hkv' l' hl' t ht
      rcases List.mem_cons.mp hkv' with he | hm
      · rw [he] at hl'
        rw [hl'] at hi
        injection hi with hli
        rw [hli] at ht
        exact hacc t (List.mem_append_right _ ht)
      · exact hrest kv' hm l' hl' t ht

/-- Every server in the list contributes its status entry to a successful
`get_servers_status` result. -/
theorem serversStatusGo_mem :
    ∀ (lst : List (String × UpstreamServer)) (acc st : List Json),
    serversStatusGo lst acc = .ok st →
    (∀ x ∈ acc, x ∈ st) ∧
    (∀ kv ∈ lst, ∀ ent, statusEntry kv.2 = .ok ent → ent ∈ st) := by
  intro lst
  induction lst with
  | nil =>
    intro acc st h
    simp only [serversStatusGo, Except.ok.injEq] at h
    subst h
    exact ⟨fun x hx => hx, by simp⟩
  | cons kv rest ih =>
    intro acc st h
    simp only [serversStatusGo] at h
    cases hi : statusEntry kv.2 with
    | error e => simp [hi] at h
    | ok ent =>
      simp only [hi] at h
      obtain ⟨hacc, hrest⟩ := ih (acc ++ [ent]) st h
      refine ⟨fun x hx => hacc x (List.mem_append_left _ hx), ?_⟩
      intro kv' hkv' ent' hent'
      rcases List.mem_cons.mp hkv' with he | hm
      · rw [he] at hent'
        rw [hent'] at hi
        injection hi with hie
        rw [hie]
        exact hacc ent (List.mem_append_right _ (List.mem_singleton_self _))
      · exact hrest kv' hm ent' hent'

/-- The status entry of a server holding a list catalog counts every
descriptor in it. -/
theorem statusEntry_arr (srv : UpstreamServer) (l : List Json) (h : srv.tools = .arr l) :
    statusEntry srv =
      .ok (.obj [("id", .str srv.server_id), ("description", .str srv.description),
                 ("tools_count", .num (Int.ofNat l.length)),
                 ("status", .str srv.statusStr)]) := by
  simp only [statusEntry, h, pyLen]
  rfl

/-- C10: a tool descriptor whose `name` is missing or falsy is skipped by
the registration loop of `load_and_start` (the routing table and the
diagnostics are exactly as if it were absent), and a load never registers
a falsy key, so `route_tool_call` can never reach such a descriptor (the
empty name always misses); yet the descriptor still appears in
`get_server_tools` and `get_all_tools`, and is counted in the
`tools_count` of `get_servers_status`. -/
theorem falsy_named_tools_spec :
    (∀ (sid : String) (table : List (Json × String)) (tool : Json) (rest : List Json)
       (v : Json), tool.get "name" .null = .ok v → v.truthy = false →
       registerTools sid table (tool :: rest) = registerTools sid table rest) ∧
    (∀ (cfg : List (ConfigEntry × ChildScript)) (args : Json),
       ((UpstreamManager.init.load_and_start cfg).2.1).route_tool_call "" args =
         (.error (.unknownTool ""), (UpstreamManager.init.load_and_start cfg).2.1)) ∧
    (∀ (m : UpstreamManager) (sid : String) (srv : UpstreamServer) (l : List Json)
       (t : Json),
       dictFind? m.servers sid = some srv → srv.tools = .arr l → t ∈ l →
       m.get_server_tools sid = .ok (.arr l) ∧
       (∀ ts, m.get_all_tools = .ok ts → t ∈ ts) ∧
       (∀ st, m.get_servers_status = .ok st →
          (Json.obj [("id", .str srv.server_id), ("description", .str srv.description),
                     ("tools_count", .num (Int.ofNat l.length)),
                     ("status", .str srv.statusStr)]) ∈ st)) := by
  refine ⟨?_, ?_, ?_⟩
  · intro sid table tool rest v hg hv
    simp [registerTools, hg, hv]
  · intro cfg args
    have htru := load_keysTruthy cfg UpstreamManager.init
      (by intro kv hkv; simp [UpstreamManager.init] at hkv)
    have hnone : dictFind?
        ((UpstreamManager.init.load_and_start cfg).2.1).tool_to_server (.str "") = none := by
      cases hf : dictFind?
          ((UpstreamManager.init.load_and_start cfg).2.1).tool_to_server (.str "") with
      | none => rfl
      | some sid =>
        have := htru _ (dictFind?_mem hf)
        simp [Json.truthy] at this
        exact absurd this (by decide)
    simp [UpstreamManager.route_tool_call, hnone]
  · intro m sid srv l t hfind htools hmem
    refine ⟨by simp [UpstreamManager.get_server_tools, hfind, htools], ?_, ?_⟩
    · intro ts hts
      have hkv : (sid, srv) ∈ m.servers := dictFind?_mem hfind
      have hiter : pyIter srv.tools = .ok l := by simp [pyIter, htools]
      exact (getAllToolsGo_mem m.servers [] ts hts).2 (sid, srv) hkv l hiter t hmem
    · intro st hst
      have hkv : (sid, srv) ∈ m.servers := dictFind?_mem hfind
      have hent := statusEntry_arr srv l htools
      exact (serversStatusGo_mem m.servers [] st hst).2 (sid, srv) hkv _ hent

/-- A server holding one falsy-named and one normal descriptor. -/
def srvC10 : UpstreamServer :=
  { server_id := "s", description := "d", command := "c",
    proc := some { stdinWrites := [], stdoutLines := [], alive := true },
    tools := .arr [.obj [("name", .str "")], .obj [("name", .str "x")]], _next_id := 3 }

def mC10 : UpstreamManager :=
  { servers := [("s", srvC10)], tool_to_server := [(.str "x", "s")] }

theorem falsy_named_tools_spec_witness :
    registerTools "s" [] [.obj [("name", .str "")], .obj [("name", .str "x")]] =
      registerTools "s" [] [.obj [("name", .str "x")]] ∧
    (UpstreamManager.init.load_and_start []).2.1.route_tool_call "" (.obj []) =
      (.error (.unknownTool ""), (UpstreamManager.init.load_and_start []).2.1) ∧
    mC10.get_server_tools "s" =
      .ok (.arr [.obj [("name", .str "")], .obj [("name", .str "x")]]) ∧
    (Json.obj [("name", .str "")]) ∈
      ([.obj [("name", .str "")], .obj [("name", .str "x")]] : List Json) ∧
    (Json.obj [("id", .str "s"), ("description", .str "d"), ("tools_count", .num 2),
               ("status", .str "connected")]) ∈
      ([.obj [("id", .str "s"), ("description", .str "d"), ("tools_count", .num 2),
              ("status", .str "connected")]] : List Json) := by
  have h3 := falsy_named_tools_spec.2.2 mC10 "s" srvC10
    [.obj [("name", .str "")], .obj [("name", .str "x")]] (.obj [("name", .str "")])
    rfl rfl (by simp)
  refine ⟨falsy_named_tools_spec.1 "s" [] (.obj [("name", .str "")])
      [.obj [("name", .str "x")]] (.str "") rfl rfl,
    falsy_named_tools_spec.2.1 [] (.obj []), h3.1, ?_, ?_⟩
  · exact h3.2.1 [.obj [("name", .str "")], .obj [("name", .str "x")]] rfl
  · exact h3.2.2 [.obj [("id", .str "s"), ("description", .str "d"), ("tools_count", .num 2),
      ("status", .str "connected")]] rfl
